import Mathlib

/-!
Verification of the GPU characterization tool in
`backends/vulkan/tools/gpuinfo/src/app.cpp`.

The changepoint ("jump") detector `DtJumpFinder` is declared in `stats.h`,
which is not part of the sources at hand; only its callers in `app.cpp` are.
It is therefore modelled from the specification's contract (spec §4.1).
The sweep loops (`reg_count`, `find_ngrp_by_nreg`, `buf_cacheline_size`)
are embedded directly from `app.cpp`, with the GPU `bench` calls abstracted
as an oracle supplying the timing sample for each candidate parameter value.
Timing samples are modelled as exact rationals.
-/

/-- Modelled from the spec: the state of the changepoint detector
`DtJumpFinder<NTap>` of `stats.h`, which is missing from the sources.
Spec §4.1: "maintains a fixed-size window of the last N accepted samples
(N configurable, e.g. 5)" together with the two configuration scalars
(threshold multiplier and compensation floor). The window list is kept
oldest-first. -/
structure DtJumpFinder where
  capacity : Nat
  compensate : ℚ
  threshold : ℚ
  window : List ℚ
deriving DecidableEq, Repr

/-- Mean of a sample window (0 on the empty window, which the detector
never consults). -/
def mean (w : List ℚ) : ℚ := w.sum / w.length

/-- Mean absolute deviation of a sample window from its mean. -/
def meanAbsDev (w : List ℚ) : ℚ :=
  (w.map (fun x => |x - mean w|)).sum / w.length

/-- Modelled from the spec: `DtJumpFinder::push` of `stats.h`, which is
missing from the sources. Spec §4.1: for each new sample, when the window
is not yet full, accumulate without testing; otherwise compute the window
mean and the mean absolute deviation, classify the sample as a jump when
its distance from the mean exceeds
`max(threshold_multiplier * mean_deviation, compensation_floor)`;
if it is not a jump, push it into the window, evicting the oldest.
Returns the updated detector state and the jump classification. -/
def DtJumpFinder.push (d : DtJumpFinder) (x : ℚ) : DtJumpFinder × Bool :=
  if d.window.length < d.capacity then
    ({ d with window := d.window ++ [x] }, false)
  else if |x - mean d.window| > max (d.threshold * meanAbsDev d.window) d.compensate then
    (d, true)
  else
    ({ d with window := d.window.tail ++ [x] }, false)

/-- Feed a list of samples through the detector, keeping only the final
state (jump classifications are discarded; on a jump the state is
unchanged). -/
def runPushes (d : DtJumpFinder) (xs : List ℚ) : DtJumpFinder :=
  xs.foldl (fun a x => (a.push x).1) d

/-- The per-index jump classifications produced by pushing a sample
sequence through the detector. -/
def runClassify (d : DtJumpFinder) : List ℚ → List Bool
  | [] => []
  | x :: rest =>
    match d.push x with
    | (d', b) => b :: runClassify d' rest

/-- Index (0-based) of the first sample a run of the detector classifies
as a jump, `none` when no sample of the sequence is. -/
def firstJump (d : DtJumpFinder) : List ℚ → Option Nat
  | [] => none
  | x :: rest =>
    match d.push x with
    | (d', b) => if b then some 0 else (firstJump d' rest).map (· + 1)

/-- The sweep loop shared by `App::reg_count` (app.cpp:88-97),
`find_ngrp_by_nreg` (app.cpp:107-118) and `App::buf_cacheline_size`
(app.cpp:194-203): the loop variable starts at `param`, each iteration
benches the current parameter value (samples are supplied in `xs`, oldest
first) and pushes the time into the detector; on the first reported jump
the loop breaks immediately. Returns the value of the loop variable at
exit and, when a jump was detected, the parameter value at which it was. -/
def sweepLoop (d : DtJumpFinder) (param : Nat) : List ℚ → Nat × Option Nat
  | [] => (param, none)
  | x :: rest =>
    match d.push x with
    | (d', b) => if b then (param, some param) else sweepLoop d' (param + 1) rest

/-- App.cpp line 47: `NREG_MAX = 512`. -/
def NREG_MAX : Nat := 512

/-- App.cpp line 48: `NREG_STEP = 1`. -/
def NREG_STEP : Nat := 1

/-- App.cpp line 55: `NGRP_MAX = 64`. -/
def NGRP_MAX : Nat := 64

/-- App.cpp lines 51-52 / 157-158: `COMPENSATE = 0.01` in both tests. -/
def COMPENSATE : ℚ := 1 / 100

/-- App.cpp line 86 / 106: the detector instantiated by `App::reg_count`
and `find_ngrp_by_nreg`: `DtJumpFinder<5> dj(COMPENSATE, THRESHOLD)` with
`THRESHOLD = 3` (line 52), starting from an empty window. -/
def regDetectorInit : DtJumpFinder :=
  { capacity := 5, compensate := COMPENSATE, threshold := 3, window := [] }

/-- App.cpp line 192: the detector instantiated by
`App::buf_cacheline_size`: `DtJumpFinder<5> dj(COMPENSATE, THRESHOLD)`
with `THRESHOLD = 10` (line 158), starting from an empty window. -/
def cacheDetectorInit : DtJumpFinder :=
  { capacity := 5, compensate := COMPENSATE, threshold := 10, window := [] }

/-- App.cpp lines 84-103: the register-count sweep of `App::reg_count`.
`xs` holds the benched times for `nreg = 1, 2, ..., 512` (oldest first).
On a jump the loop decrements `nreg` and records it as `nreg_max`
(lines 93-94); after the loop, when `nreg >= NREG_MAX`, the fallback
`nreg_max = NREG_STEP` is taken (line 100). An unset `nreg_max`
(never returned on inputs of length `NREG_MAX`) is modelled as 0. -/
def regCountNregMax (xs : List ℚ) : Nat :=
  match sweepLoop regDetectorInit 1 xs with
  | (nregLoop, j) =>
    let nreg := match j with | some s => s - NREG_STEP | none => nregLoop
    let nregMax := match j with | some s => s - NREG_STEP | none => 0
    if NREG_MAX ≤ nreg then NREG_STEP else nregMax

/-- App.cpp lines 105-123: `find_ngrp_by_nreg`. `xs` holds the benched
times for `ngrp = 1, ..., 64` (oldest first). On a jump the loop returns
the decremented `ngrp` (lines 113-116); when the sweep exhausts it
returns 1 (line 122). -/
def findNgrpByNreg (xs : List ℚ) : Nat :=
  match sweepLoop regDetectorInit 1 xs with
  | (_, some s) => s - 1
  | (_, none) => 1

/-- App.cpp lines 190-210: the stride sweep of `App::buf_cacheline_size`.
`xs` holds the benched times for `stride = 1, ..., maxStride` (oldest
first). On a jump the loop sets `cacheline_size = stride * sizeof(float)`
and breaks (lines 199-202); after the loop, when `stride >= MAX_STRIDE`,
the fallback `cacheline_size = MAX_STRIDE` overwrites it (lines 204-208).
An unset `cacheline_size` (never returned on inputs of length
`maxStride`) is modelled as 0. -/
def bufCachelineSize (maxStride : Nat) (xs : List ℚ) : Nat :=
  match sweepLoop cacheDetectorInit 1 xs with
  | (stride, j) =>
    let c := match j with | some s => s * 4 | none => 0
    if maxStride ≤ stride then maxStride else c

/-- The outcome of `App::reg_count` (app.cpp lines 43-150), abstracted
over the `bench ngrp nreg` timing oracle. -/
structure RegCountResult where
  nregMax : Nat
  ngrpFull : Nat
  ngrpHalf : Nat
  regTy : String
deriving DecidableEq, Repr

/-- App.cpp lines 84-149: the full register-count test. The first sweep
finds `nreg_max`; `find_ngrp_by_nreg` is then run with `nreg_max` and
`nreg_max / 2` registers (lines 126-127); the register type is "Pooled"
when `ngrp_full * 1.5 < ngrp_half` and "Dedicated" otherwise
(lines 131-140). -/
def regCountRun (bench : Nat → Nat → ℚ) : RegCountResult :=
  let nm := regCountNregMax ((List.range NREG_MAX).map (fun i => bench 1 (1 + i)))
  let gf := findNgrpByNreg ((List.range NGRP_MAX).map (fun i => bench (1 + i) nm))
  let gh := findNgrpByNreg ((List.range NGRP_MAX).map (fun i => bench (1 + i) (nm / 2)))
  let ty := if (gf : ℚ) * 1.5 < (gh : ℚ) then "Pooled" else "Dedicated"
  ⟨nm, gf, gh, ty⟩

/-! ### Basic lemmas about the detector -/

lemma mean_replicate (c : Nat) (v : ℚ) (hc : c ≠ 0) :
    mean (List.replicate c v) = v := by
  unfold mean
  rw [List.sum_replicate, List.length_replicate, nsmul_eq_mul]
  exact mul_div_cancel_left₀ v (Nat.cast_ne_zero.mpr hc)

lemma meanAbsDev_replicate (c : Nat) (v : ℚ) (hc : c ≠ 0) :
    meanAbsDev (List.replicate c v) = 0 := by
  unfold meanAbsDev
  rw [List.map_replicate, mean_replicate c v hc]
  simp

lemma push_capacity (d : DtJumpFinder) (x : ℚ) :
    ((d.push x).1).capacity = d.capacity := by
  unfold DtJumpFinder.push
  split <;> [rfl ; split <;> rfl]

lemma push_flat (d : DtJumpFinder) (v : ℚ) (m : Nat)
    (hw : d.window = List.replicate m v) (hm : m ≤ d.capacity)
    (hc : 0 < d.capacity) :
    d.push v = ({ d with window := List.replicate (min (m + 1) d.capacity) v }, false) := by
  unfold DtJumpFinder.push
  rw [hw, List.length_replicate]
  by_cases h : m < d.capacity
  · rw [if_pos h, ← List.replicate_succ', min_eq_left (by omega)]
  · have hm' : m = d.capacity := le_antisymm hm (not_lt.mp h)
    have hne : m ≠ 0 := by omega
    rw [if_neg h, mean_replicate m v hne, meanAbsDev_replicate m v hne]
    have hcond : ¬ (|v - v| > max (d.threshold * 0) d.compensate) := by
      rw [sub_self, abs_zero, mul_zero]
      exact not_lt.mpr (le_max_left 0 d.compensate)
    rw [if_neg hcond]
    have : (List.replicate m v).tail ++ [v] = List.replicate (min (m + 1) d.capacity) v := by
      rcases Nat.exists_eq_succ_of_ne_zero hne with ⟨k, rfl⟩
      rw [List.replicate_succ, List.tail_cons, ← List.replicate_succ',
        min_eq_right (by omega), ← hm']
    rw [this]

lemma firstJump_flat (n : Nat) (d : DtJumpFinder) (v : ℚ) (m : Nat)
    (hw : d.window = List.replicate m v) (hm : m ≤ d.capacity)
    (hc : 0 < d.capacity) :
    firstJump d (List.replicate n v) = none := by
  induction n generalizing d m with
  | zero => rfl
  | succ k ih =>
    rw [List.replicate_succ]
    unfold firstJump
    rw [push_flat d v m hw hm hc]
    simp only [Bool.false_eq_true, if_false]
    rw [ih ⟨d.capacity, d.compensate, d.threshold,
          List.replicate (min (m + 1) d.capacity) v⟩
        (min (m + 1) d.capacity) rfl (min_le_right _ _) hc]
    rfl

lemma runPushes_flat (n : Nat) (d : DtJumpFinder) (v : ℚ) (m : Nat)
    (hw : d.window = List.replicate m v) (hm : m ≤ d.capacity)
    (hc : 0 < d.capacity) :
    runPushes d (List.replicate n v) =
      { d with window := List.replicate (min (m + n) d.capacity) v } := by
  induction n generalizing d m with
  | zero =>
    have : min (m + 0) d.capacity = m := by omega
    rw [this, ← hw]
    rfl
  | succ k ih =>
    rw [List.replicate_succ]
    show runPushes (d.push v).1 (List.replicate k v) = _
    have hstep : (d.push v).1 =
        ⟨d.capacity, d.compensate, d.threshold,
          List.replicate (min (m + 1) d.capacity) v⟩ := by
      rw [push_flat d v m hw hm hc]
    rw [hstep, ih ⟨d.capacity, d.compensate, d.threshold,
          List.replicate (min (m + 1) d.capacity) v⟩
        (min (m + 1) d.capacity) rfl (min_le_right _ _) hc]
    have : min (min (m + 1) d.capacity + k) d.capacity = min (m + (k + 1)) d.capacity := by
      omega
    simp only [this]

lemma firstJump_cons (d d' : DtJumpFinder) (b : Bool) (x : ℚ) (l : List ℚ)
    (hp : d.push x = (d', b)) :
    firstJump d (x :: l) =
      if b = true then some 0 else (firstJump d' l).map (· + 1) := by
  simp only [firstJump, hp]

lemma firstJump_append_none (xs : List ℚ) (d : DtJumpFinder) (ys : List ℚ)
    (h : firstJump d xs = none) :
    firstJump d (xs ++ ys) =
      (firstJump (runPushes d xs) ys).map (· + xs.length) := by
  induction xs generalizing d with
  | nil =>
    simp only [List.nil_append, runPushes, List.foldl_nil, List.length_nil]
    cases firstJump d ys <;> simp
  | cons x rest ih =>
    rcases hp : d.push x with ⟨d', b⟩
    cases b with
    | true =>
      rw [firstJump_cons d d' true x rest hp] at h
      simp at h
    | false =>
      have hrest : firstJump d' rest = none := by
        rw [firstJump_cons d d' false x rest hp] at h
        simpa using h
      have hrun : runPushes d (x :: rest) = runPushes d' rest := by
        show runPushes (d.push x).1 rest = _
        rw [hp]
      rw [List.cons_append, firstJump_cons d d' false x (rest ++ ys) hp]
      simp only [Bool.false_eq_true, if_false]
      rw [ih d' hrest, hrun]
      rcases firstJump (runPushes d' rest) ys with _ | n
      · simp
      · simp only [Option.map_some', List.length_cons, Option.some.injEq]
        omega

lemma firstJump_append_some (xs : List ℚ) (d : DtJumpFinder) (ys : List ℚ)
    (i : Nat) (h : firstJump d xs = some i) :
    firstJump d (xs ++ ys) = some i := by
  induction xs generalizing d i with
  | nil => exact absurd h (by simp [firstJump])
  | cons x rest ih =>
    rcases hp : d.push x with ⟨d', b⟩
    rw [List.cons_append]
    unfold firstJump at h ⊢
    rw [hp] at h ⊢
    cases b with
    | true => simpa using h
    | false =>
      simp only [Bool.false_eq_true, if_false] at h ⊢
      rcases Option.map_eq_some'.mp h with ⟨j, hj, hji⟩
      rw [ih d' j hj]
      simpa using hji

lemma sweepLoop_spec (xs : List ℚ) (d : DtJumpFinder) (p : Nat) :
    sweepLoop d p xs = match firstJump d xs with
      | some i => (p + i, some (p + i))
      | none => (p + xs.length, none) := by
  induction xs generalizing d p with
  | nil => rfl
  | cons x rest ih =>
    rcases hp : d.push x with ⟨d', b⟩
    unfold sweepLoop firstJump
    rw [hp]
    cases b with
    | true => simp
    | false =>
      simp only [Bool.false_eq_true, if_false]
      rw [ih d' (p + 1)]
      cases firstJump d' rest <;> simp <;> omega

lemma push_window_le (d : DtJumpFinder) (x : ℚ) (hc : 0 < d.capacity)
    (h : d.window.length ≤ d.capacity) :
    ((d.push x).1).window.length ≤ d.capacity := by
  unfold DtJumpFinder.push
  split
  next hlt =>
    show (d.window ++ [x]).length ≤ d.capacity
    simp only [List.length_append, List.length_cons, List.length_nil]
    omega
  next hge =>
    split
    next => exact h
    next =>
      show (d.window.tail ++ [x]).length ≤ d.capacity
      simp only [List.length_append, List.length_tail, List.length_cons,
        List.length_nil]
      omega

lemma push_not_full (d : DtJumpFinder) (x : ℚ)
    (h : d.window.length < d.capacity) :
    d.push x = ({ d with window := d.window ++ [x] }, false) := by
  unfold DtJumpFinder.push
  rw [if_pos h]

lemma push_full_flat (d : DtJumpFinder) (v y : ℚ)
    (hw : d.window = List.replicate d.capacity v) (hc : 0 < d.capacity) :
    d.push y =
      if |y - v| > max (d.threshold * 0) d.compensate
      then (d, true)
      else ({ d with window := (List.replicate d.capacity v).tail ++ [y] }, false) := by
  unfold DtJumpFinder.push
  rw [hw, List.length_replicate, if_neg (lt_irrefl _),
    mean_replicate _ _ (by omega), meanAbsDev_replicate _ _ (by omega)]

lemma firstJump_lower_bound (xs : List ℚ) (d : DtJumpFinder) (i : Nat)
    (h : firstJump d xs = some i) : d.capacity - d.window.length ≤ i := by
  induction xs generalizing d i with
  | nil => simp [firstJump] at h
  | cons x rest ih =>
    rcases hp : d.push x with ⟨d', b⟩
    rw [firstJump_cons d d' b x rest hp] at h
    cases b with
    | true =>
      have hge : ¬ d.window.length < d.capacity := by
        intro hlt
        rw [push_not_full d x hlt] at hp
        exact Bool.noConfusion (congrArg Prod.snd hp)
      simp at h
      omega
    | false =>
      simp only [Bool.false_eq_true, if_false] at h
      rcases Option.map_eq_some'.mp h with ⟨j, hj, hji⟩
      by_cases hlt : d.window.length < d.capacity
      · rw [push_not_full d x hlt] at hp
        have hd' : d' = { d with window := d.window ++ [x] } :=
          (congrArg Prod.fst hp).symm
        subst hd'
        have hle := ih _ j hj
        simp only [List.length_append, List.length_cons, List.length_nil] at hle
        omega
      · omega

lemma firstJump_flat_outlier (c : Nat) (comp th v y : ℚ) (m : Nat)
    (rest : List ℚ) (hc : 0 < c) (hcm : c ≤ m)
    (hcond : |y - v| > max (th * 0) comp) :
    firstJump { capacity := c, compensate := comp, threshold := th, window := [] }
      (List.replicate m v ++ y :: rest) = some m := by
  have hnone : firstJump
      ({ capacity := c, compensate := comp, threshold := th, window := [] } :
        DtJumpFinder) (List.replicate m v) = none :=
    firstJump_flat m _ v 0 rfl (by omega) hc
  rw [firstJump_append_none (List.replicate m v) _ (y :: rest) hnone]
  have hrun : runPushes
      ({ capacity := c, compensate := comp, threshold := th, window := [] } :
        DtJumpFinder) (List.replicate m v) =
      { capacity := c, compensate := comp, threshold := th,
        window := List.replicate c v } := by
    rw [runPushes_flat m _ v 0 rfl (by omega) hc]
    have : min (0 + m) c = c := by omega
    rw [this]
  rw [hrun]
  have hpush : ({ capacity := c, compensate := comp, threshold := th, window := List.replicate c v } : DtJumpFinder).push y = ({ capacity := c, compensate := comp, threshold := th, window := List.replicate c v }, true) := by
    rw [push_full_flat _ v y rfl hc, if_pos hcond]
  rw [firstJump_cons _ _ true y rest hpush]
  simp [List.length_replicate]

lemma firstJump_flat_then_one (c : Nat) (comp th v y : ℚ) (m : Nat)
    (hc : 0 < c) (hcm : c ≤ m)
    (hno : ¬ (|y - v| > max (th * 0) comp)) :
    firstJump { capacity := c, compensate := comp, threshold := th, window := [] }
      (List.replicate m v ++ [y]) = none := by
  have hnone : firstJump
      ({ capacity := c, compensate := comp, threshold := th, window := [] } :
        DtJumpFinder) (List.replicate m v) = none :=
    firstJump_flat m _ v 0 rfl (by omega) hc
  rw [firstJump_append_none (List.replicate m v) _ [y] hnone]
  have hrun : runPushes
      ({ capacity := c, compensate := comp, threshold := th, window := [] } :
        DtJumpFinder) (List.replicate m v) =
      { capacity := c, compensate := comp, threshold := th,
        window := List.replicate c v } := by
    rw [runPushes_flat m _ v 0 rfl (by omega) hc]
    have : min (0 + m) c = c := by omega
    rw [this]
  rw [hrun]
  have hpush : ({ capacity := c, compensate := comp, threshold := th, window := List.replicate c v } : DtJumpFinder).push y = ({ capacity := c, compensate := comp, threshold := th, window := (List.replicate c v).tail ++ [y] }, false) := by
    rw [push_full_flat _ v y rfl hc, if_neg hno]
  rw [firstJump_cons _ _ false y [] hpush]
  simp [firstJump]

/-! ### The claims -/

/-- C1: for every sample pushed into the detector with a full window, the
sample is classified as a jump iff the absolute distance between the
sample and the window mean exceeds
`max(threshold * mean_absolute_deviation, compensation_floor)`; and in
this program's instantiations the threshold is 3 (register count) or 10
(cacheline size) and the compensation floor is `COMPENSATE = 0.01`. -/
theorem claim_C1_jump_condition :
    (∀ (d : DtJumpFinder) (x : ℚ), d.window.length = d.capacity →
      ((d.push x).2 = true ↔
        |x - mean d.window| > max (d.threshold * meanAbsDev d.window) d.compensate))
    ∧ regDetectorInit.threshold = 3 ∧ cacheDetectorInit.threshold = 10
    ∧ regDetectorInit.compensate = COMPENSATE
    ∧ cacheDetectorInit.compensate = COMPENSATE
    ∧ COMPENSATE = 1 / 100 := by
  refine ⟨?_, rfl, rfl, rfl, rfl, rfl⟩
  intro d x hfull
  unfold DtJumpFinder.push
  rw [if_neg (by omega)]
  split
  next hc => simpa using hc
  next hc => simpa using hc

/-- Witness for C1: a detector with the register-count configuration and
a full flat window of five samples `1` classifies the sample `100` as a
jump. -/
theorem claim_C1_jump_condition_witness :
    (({ capacity := 5, compensate := COMPENSATE, threshold := 3, window := List.replicate 5 1 } : DtJumpFinder).push 100).2 = true :=
  (claim_C1_jump_condition.1 _ 100 (by simp)).mpr (by
    rw [mean_replicate 5 1 (by omega), meanAbsDev_replicate 5 1 (by omega)]
    show |(100:ℚ) - 1| > max (3 * 0) COMPENSATE
    unfold COMPENSATE
    norm_num)

/-- C3: once a sweep's detector reports a jump at some index, the sweep
loop stops at exactly that parameter value and the remaining samples
(`ys`) are never consumed: they do not affect the result. -/
theorem claim_C3_stop_at_first_jump :
    ∀ (d : DtJumpFinder) (p : Nat) (xs ys : List ℚ) (i : Nat),
      firstJump d xs = some i →
      sweepLoop d p (xs ++ ys) = (p + i, some (p + i)) := by
  intro d p xs ys i h
  rw [sweepLoop_spec, firstJump_append_some xs d ys i h]

/-- Witness for C3: the cacheline sweep on five flat samples followed by
an outlier stops at stride 6 regardless of the appended tail. -/
theorem claim_C3_stop_at_first_jump_witness :
    sweepLoop cacheDetectorInit 1 ((List.replicate 5 1 ++ 100 :: []) ++ [7]) = (6, some 6) :=
  claim_C3_stop_at_first_jump cacheDetectorInit 1 (List.replicate 5 1 ++ 100 :: []) [7] 5
    (firstJump_flat_outlier 5 COMPENSATE 10 1 100 5 [] (by omega) (by omega) (by
      show |(100:ℚ) - 1| > max (10 * 0) COMPENSATE
      unfold COMPENSATE
      norm_num))

/-- C4: a detector window within capacity stays within capacity under any
sequence of pushes; a non-jump push into a full window evicts exactly the
oldest (front) sample; and both detectors in this program have window
capacity `N = 5`. -/
theorem claim_C4_window_capacity_fifo :
    (∀ (d : DtJumpFinder) (xs : List ℚ), 0 < d.capacity →
      d.window.length ≤ d.capacity →
      (runPushes d xs).window.length ≤ d.capacity)
    ∧ (∀ (d : DtJumpFinder) (x a : ℚ) (w : List ℚ),
      d.window = a :: w → d.window.length = d.capacity →
      (d.push x).2 = false → ((d.push x).1).window = w ++ [x])
    ∧ regDetectorInit.capacity = 5 ∧ cacheDetectorInit.capacity = 5 := by
  refine ⟨?_, ?_, rfl, rfl⟩
  · intro d xs
    induction xs generalizing d with
    | nil => intro _ h2; exact h2
    | cons x rest ih =>
      intro h1 h2
      show (runPushes (d.push x).1 rest).window.length ≤ d.capacity
      have hcap := push_capacity d x
      rw [← hcap]
      exact ih (d.push x).1 (by rw [hcap]; exact h1)
        (by rw [hcap]; exact push_window_le d x h1 h2)
  · intro d x a w hw hfull hnj
    unfold DtJumpFinder.push at hnj ⊢
    rw [if_neg (by omega)] at hnj ⊢
    split at hnj
    next hc => simp at hnj
    next hc =>
      rw [if_neg hc]
      show d.window.tail ++ [x] = w ++ [x]
      rw [hw]
      rfl

/-- Witness for C4: a full window `[1,2,3,4,5]` stays within capacity 5
under two further pushes, and a non-jump push into a full flat window of
five `1`s evicts exactly the front sample. -/
theorem claim_C4_window_capacity_fifo_witness :
    (runPushes { capacity := 5, compensate := COMPENSATE, threshold := 3, window := [1, 2, 3, 4, 5] } [6, 7]).window.length ≤ 5
    ∧ (({ capacity := 5, compensate := COMPENSATE, threshold := 3, window := List.replicate 5 1 } : DtJumpFinder).push 1).1.window = List.replicate 4 1 ++ [1] :=
  ⟨claim_C4_window_capacity_fifo.1 _ [6, 7] (by decide) (by decide),
   claim_C4_window_capacity_fifo.2.1 _ 1 1 (List.replicate 4 1) rfl (by simp)
     (congrArg Prod.snd (push_flat _ 1 5 rfl (by decide) (by decide)))⟩

/-- C5: while the window is not yet full, a pushed sample is accumulated
into the window and not classified as a jump; consequently a detector
started with an empty window never reports a jump among its first
`capacity` samples (the first jump index is at least `capacity`). -/
theorem claim_C5_warmup_accumulates :
    (∀ (d : DtJumpFinder) (x : ℚ), d.window.length < d.capacity →
      d.push x = ({ d with window := d.window ++ [x] }, false))
    ∧ (∀ (d : DtJumpFinder) (xs : List ℚ) (i : Nat), d.window = [] →
      firstJump d xs = some i → d.capacity ≤ i) := by
  refine ⟨push_not_full, ?_⟩
  intro d xs i hw h
  have hlb := firstJump_lower_bound xs d i h
  rw [hw] at hlb
  simpa using hlb

/-- Witness for C5: the first push into the empty register-count detector
accumulates without jumping, and on a five-flat-then-outlier sequence the
first jump index 5 is no smaller than the capacity 5. -/
theorem claim_C5_warmup_accumulates_witness :
    regDetectorInit.push 1 = ({ capacity := 5, compensate := COMPENSATE, threshold := 3, window := [1] }, false)
    ∧ (5 : Nat) ≤ 5 :=
  ⟨claim_C5_warmup_accumulates.1 regDetectorInit 1 (by decide),
   claim_C5_warmup_accumulates.2 regDetectorInit (List.replicate 5 1 ++ 100 :: []) 5 rfl
     (firstJump_flat_outlier 5 COMPENSATE 3 1 100 5 [] (by omega) (by omega) (by
       show |(100:ℚ) - 1| > max (3 * 0) COMPENSATE
       unfold COMPENSATE
       norm_num))⟩

/-- C6: a strictly flat sequence of `capacity + k` identical samples fed
to a freshly initialized detector never triggers a jump, for any window
capacity, threshold and compensation floor. -/
theorem claim_C6_flat_sequence_no_jump :
    ∀ (c : Nat) (comp th v : ℚ) (k : Nat), 0 < c →
      firstJump { capacity := c, compensate := comp, threshold := th, window := [] }
        (List.replicate (c + k) v) = none := by
  intro c comp th v k hc
  exact firstJump_flat (c + k) _ v 0 rfl (by omega) hc

/-- Witness for C6: seven identical samples `7` through a fresh capacity-5
detector yield no jump. -/
theorem claim_C6_flat_sequence_no_jump_witness :
    firstJump { capacity := 5, compensate := COMPENSATE, threshold := 3, window := [] }
      (List.replicate (5 + 2) (7:ℚ)) = none :=
  claim_C6_flat_sequence_no_jump 5 COMPENSATE 3 7 2 (by decide)

/-- Counterexample to C7: with the register-count configuration
(window 5, threshold 3, compensation floor 0.01) and `v = 1/1000`, the
sequence that holds `v` until the window is full and then jumps to
`v * 10` triggers no jump at all — the claimed detection at the first
outlier index does not happen, because the jump distance `9v = 0.009`
does not clear the compensation floor `0.01`. -/
theorem claim_C7_counterexample :
    firstJump regDetectorInit
      (List.replicate 5 (1/1000 : ℚ) ++ [10 * (1/1000 : ℚ)]) = none :=
  firstJump_flat_then_one 5 COMPENSATE 3 (1/1000) (10 * (1/1000)) 5
    (by omega) (by omega) (by
      show ¬ (|10 * (1/1000 : ℚ) - 1/1000| > max (3 * 0) COMPENSATE)
      unfold COMPENSATE
      rw [show 10 * (1/1000 : ℚ) - 1/1000 = 9/1000 by norm_num,
        abs_of_nonneg (by norm_num : (0:ℚ) ≤ 9/1000)]
      norm_num)

/-- C7 (amended): for every sequence holding a constant `v` until the
window is full and then jumping to `v * 10`, PROVIDED the jump distance
`|10v - v|` exceeds `max(threshold * 0, compensation_floor)` (with the
program's floor 0.01 this means `|v| > 1/900`), the detector reports a
jump exactly at the index of the first outlier and at no earlier index. -/
theorem claim_C7_outlier_detected :
    ∀ (c : Nat) (comp th v : ℚ) (m : Nat) (rest : List ℚ),
      0 < c → c ≤ m → |10 * v - v| > max (th * 0) comp →
      firstJump { capacity := c, compensate := comp, threshold := th, window := [] }
        (List.replicate m v ++ (10 * v) :: rest) = some m := by
  intro c comp th v m rest hc hcm hcond
  exact firstJump_flat_outlier c comp th v (10 * v) m rest hc hcm hcond

/-- Witness for C7 (amended): with `v = 1` the jump to `10` after five
flat samples is reported exactly at index 5. -/
theorem claim_C7_outlier_detected_witness :
    firstJump { capacity := 5, compensate := COMPENSATE, threshold := 3, window := [] }
      (List.replicate 5 (1:ℚ) ++ (10 * 1 : ℚ) :: []) = some 5 :=
  claim_C7_outlier_detected 5 COMPENSATE 3 1 5 [] (by decide) (by decide) (by
    show |10 * (1:ℚ) - 1| > max (3 * 0) COMPENSATE
    unfold COMPENSATE
    norm_num)

/-- C8: the detector is deterministic — two detectors with the same
configuration (capacity, compensation floor, threshold) and the same
window state produce identical per-index classifications and the same
first jump index on any input sequence. -/
theorem claim_C8_deterministic :
    ∀ (d₁ d₂ : DtJumpFinder) (xs : List ℚ),
      d₁.capacity = d₂.capacity → d₁.compensate = d₂.compensate →
      d₁.threshold = d₂.threshold → d₁.window = d₂.window →
      runClassify d₁ xs = runClassify d₂ xs ∧ firstJump d₁ xs = firstJump d₂ xs := by
  intro d₁ d₂ xs h1 h2 h3 h4
  have hd : d₁ = d₂ := by
    cases d₁
    cases d₂
    simp only [DtJumpFinder.mk.injEq]
    exact ⟨h1, h2, h3, h4⟩
  rw [hd]
  exact ⟨rfl, rfl⟩

/-- Witness for C8: two identically configured register-count detectors
agree on the sequence `[1, 2]`. -/
theorem claim_C8_deterministic_witness :
    runClassify regDetectorInit [1, 2] = runClassify regDetectorInit [1, 2]
    ∧ firstJump regDetectorInit [1, 2] = firstJump regDetectorInit [1, 2] :=
  claim_C8_deterministic regDetectorInit regDetectorInit [1, 2] rfl rfl rfl rfl

lemma sweep_none_iff (d : DtJumpFinder) (p : Nat) (xs : List ℚ) :
    (sweepLoop d p xs).2 = none ↔ firstJump d xs = none := by
  rw [sweepLoop_spec]
  rcases firstJump d xs with _ | i <;> simp

/-- Counterexample to C2: when the register-count sweep exhausts all 512
candidates without a jump (here: 512 identical timing samples), the code
falls back to `NREG_STEP = 1` (app.cpp line 100), not to the maximum
sweep bound `NREG_MAX = 512` as claimed. -/
theorem claim_C2_counterexample :
    regCountNregMax (List.replicate NREG_MAX (1:ℚ)) = NREG_STEP
    ∧ NREG_STEP ≠ NREG_MAX := by
  constructor
  · have hfj : firstJump regDetectorInit (List.replicate NREG_MAX (1:ℚ)) = none :=
      firstJump_flat NREG_MAX regDetectorInit 1 0 rfl (by decide) (by decide)
    have hlen : (List.replicate NREG_MAX (1:ℚ)).length = NREG_MAX :=
      List.length_replicate NREG_MAX 1
    unfold regCountNregMax
    rw [sweepLoop_spec, hfj, hlen]
    show (if NREG_MAX ≤ 1 + NREG_MAX then NREG_STEP else 0) = NREG_STEP
    rw [if_pos (by omega)]
  · decide

/-- C2 (amended): for every sweep that exhausts all candidate values
without the detector reporting a jump, the caller falls back to a fixed
default — the cacheline-size sweep indeed falls back to its maximum bound
`MAX_STRIDE`, but the register-count sweep falls back to `NREG_STEP = 1`
and the workgroup sweep in `find_ngrp_by_nreg` falls back to `1`, not to
their maximum bounds. -/
theorem claim_C2_exhaustion_fallback :
    (∀ xs : List ℚ, xs.length = NREG_MAX →
      (sweepLoop regDetectorInit 1 xs).2 = none → regCountNregMax xs = NREG_STEP)
    ∧ (∀ (m : Nat) (xs : List ℚ), xs.length = m →
      (sweepLoop cacheDetectorInit 1 xs).2 = none → bufCachelineSize m xs = m)
    ∧ (∀ xs : List ℚ,
      (sweepLoop regDetectorInit 1 xs).2 = none → findNgrpByNreg xs = 1) := by
  refine ⟨?_, ?_, ?_⟩
  · intro xs hlen hnone
    have hfj := (sweep_none_iff _ _ _).mp hnone
    unfold regCountNregMax
    rw [sweepLoop_spec, hfj]
    simp [NREG_MAX, NREG_STEP, hlen]
  · intro m xs hlen hnone
    have hfj := (sweep_none_iff _ _ _).mp hnone
    unfold bufCachelineSize
    rw [sweepLoop_spec, hfj]
    simp [hlen]
  · intro xs hnone
    have hfj := (sweep_none_iff _ _ _).mp hnone
    unfold findNgrpByNreg
    rw [sweepLoop_spec, hfj]

/-- Witness for C2 (amended): a flat 512-sample register sweep yields the
fallback 1; a flat 3-sample stride sweep with bound 3 yields the fallback
3 = MAX_STRIDE; an empty workgroup sweep yields the fallback 1. -/
theorem claim_C2_exhaustion_fallback_witness :
    regCountNregMax (List.replicate NREG_MAX (1:ℚ)) = NREG_STEP
    ∧ bufCachelineSize 3 (List.replicate 3 (1:ℚ)) = 3
    ∧ findNgrpByNreg [] = 1 := by
  refine ⟨claim_C2_exhaustion_fallback.1 _ (by simp) ?_,
    claim_C2_exhaustion_fallback.2.1 3 _ (by simp) ?_,
    claim_C2_exhaustion_fallback.2.2 [] rfl⟩
  · rw [sweep_none_iff]
    exact firstJump_flat NREG_MAX regDetectorInit 1 0 rfl (by decide) (by decide)
  · rw [sweep_none_iff]
    exact firstJump_flat 3 cacheDetectorInit 1 0 rfl (by decide) (by decide)

/-- C9: if the cacheline-size sweep's detector reports a jump exactly at
`stride = MAX_STRIDE`, the jump-derived value `stride * sizeof(float)` is
overwritten by the fallback `MAX_STRIDE` before being reported, because
the post-loop test `stride >= MAX_STRIDE` cannot distinguish a detection
at the final stride from sweep exhaustion. -/
theorem claim_C9_final_stride_overwritten :
    ∀ (m : Nat) (xs : List ℚ),
      sweepLoop cacheDetectorInit 1 xs = (m, some m) →
      bufCachelineSize m xs = m ∧ m ≠ m * 4 := by
  intro m xs h
  have hm : 0 < m := by
    rw [sweepLoop_spec] at h
    rcases hfj : firstJump cacheDetectorInit xs with _ | i <;> rw [hfj] at h
    · simp at h
    · simp only [Prod.mk.injEq] at h
      obtain ⟨h1, _⟩ := h
      omega
  refine ⟨?_, by omega⟩
  unfold bufCachelineSize
  rw [h]
  simp

/-- Witness for C9: with `MAX_STRIDE = 6` and a jump detected exactly at
stride 6, the reported value is the fallback 6, not the jump-derived
`6 * 4 = 24`. -/
theorem claim_C9_final_stride_overwritten_witness :
    bufCachelineSize 6 (List.replicate 5 1 ++ 100 :: []) = 6 ∧ (6:Nat) ≠ 6 * 4 :=
  claim_C9_final_stride_overwritten 6 (List.replicate 5 1 ++ 100 :: []) (by
    have hfj : firstJump cacheDetectorInit (List.replicate 5 1 ++ 100 :: []) = some 5 :=
      firstJump_flat_outlier 5 COMPENSATE 10 1 100 5 [] (by omega) (by omega) (by
        show |(100:ℚ) - 1| > max (10 * 0) COMPENSATE
        unfold COMPENSATE
        norm_num)
    rw [sweepLoop_spec, hfj])

/-- C10: the register type reported by the register-count test is
"Pooled" exactly when `ngrp_full * 1.5 < ngrp_half` and "Dedicated" in
every other case, where `ngrp_full` and `ngrp_half` are the
concurrent-workgroup counts found by `find_ngrp_by_nreg` with `nreg_max`
and `nreg_max / 2` registers respectively. -/
theorem claim_C10_register_type :
    ∀ bench : Nat → Nat → ℚ,
      ((regCountRun bench).regTy = "Pooled" ↔
        ((regCountRun bench).ngrpFull : ℚ) * 1.5 < ((regCountRun bench).ngrpHalf : ℚ))
      ∧ ((regCountRun bench).regTy = "Dedicated" ↔
        ((regCountRun bench).ngrpHalf : ℚ) ≤ ((regCountRun bench).ngrpFull : ℚ) * 1.5)
      ∧ (regCountRun bench).ngrpFull = findNgrpByNreg ((List.range NGRP_MAX).map
          (fun i => bench (1 + i) ((regCountRun bench).nregMax)))
      ∧ (regCountRun bench).ngrpHalf = findNgrpByNreg ((List.range NGRP_MAX).map
          (fun i => bench (1 + i) ((regCountRun bench).nregMax / 2))) := by
  intro bench
  have hstr : ("Pooled" : String) ≠ "Dedicated" := by decide
  unfold regCountRun
  dsimp only
  refine ⟨?_, ?_, rfl, rfl⟩
  · split
    next hc => exact ⟨fun _ => hc, fun _ => rfl⟩
    next hc => exact ⟨fun heq => absurd heq.symm hstr, fun ha => absurd ha hc⟩
  · split
    next hc => exact ⟨fun heq => absurd heq hstr, fun hle => absurd hc (not_lt.mpr hle)⟩
    next hc => exact ⟨fun _ => not_lt.mp hc, fun _ => rfl⟩
